import Mathlib

/-!
Verification development for the SecureVoice signaling and session
orchestration code: the Socket.IO relay server (`server/server.js`,
`RoomManager` plus the per-connection event handlers) and the client side
(`WebRTCService` and the `useCallEngine` orchestrator hook).

JavaScript `Map` objects are embedded as association lists with
`Map.set`-style in-place update; JavaScript `Set` objects as
insertion-ordered duplicate-free lists.  Effects produced by the external
WebRTC capability (randomly generated peer ids, the SDP strings returned by
`createOffer` / `createAnswer`) are passed in as explicit arguments.
Messages emitted over Socket.IO are accumulated in an order-preserving
outbox of (recipient, message) pairs.
-/

namespace VoiceApp

/-- Association-list lookup, mirroring JavaScript `Map.prototype.get`. -/
def lookupA {α : Type} (k : String) : List (String × α) → Option α
  | [] => none
  | (k', v) :: rest => if k' = k then some v else lookupA k rest

/-- Association-list update, mirroring JavaScript `Map.prototype.set`:
replaces the value in place if the key is present, appends otherwise. -/
def setA {α : Type} (k : String) (v : α) : List (String × α) → List (String × α)
  | [] => [(k, v)]
  | (k', v') :: rest => if k' = k then (k, v) :: rest else (k', v') :: setA k v rest

/-- Association-list removal, mirroring JavaScript `Map.prototype.delete`. -/
def eraseA {α : Type} (k : String) : List (String × α) → List (String × α)
  | [] => []
  | (k', v') :: rest => if k' = k then rest else (k', v') :: eraseA k rest

/-- The keys of the association list are pairwise distinct (always true for
lists built from `[]` by `setA` and `eraseA`, as a JavaScript `Map` keeps
unique keys). -/
def keysNodup {α : Type} (l : List (String × α)) : Prop :=
  (l.map Prod.fst).Nodup

instance {α : Type} (l : List (String × α)) : Decidable (keysNodup l) := by
  unfold keysNodup; infer_instance

/-- JavaScript `Set.prototype.add`: appends the element if absent (insertion order). -/
def setAdd (x : String) (l : List String) : List String :=
  if x ∈ l then l else l ++ [x]

theorem lookupA_mem {α : Type} {k : String} {v : α} :
    ∀ {l : List (String × α)}, lookupA k l = some v → (k, v) ∈ l := by
  intro l
  induction l with
  | nil => intro h; simp [lookupA] at h
  | cons hd tl ih =>
    obtain ⟨k1, v1⟩ := hd
    intro h
    simp only [lookupA] at h
    by_cases heq : k1 = k
    · rw [if_pos heq] at h
      obtain rfl : v1 = v := by injection h
      subst heq
      exact List.mem_cons_self _ _
    · rw [if_neg heq] at h
      exact List.mem_cons_of_mem _ (ih h)

theorem mem_setA {α : Type} {e : String × α} {k : String} {v : α} :
    ∀ {l : List (String × α)}, e ∈ setA k v l → e = (k, v) ∨ e ∈ l := by
  intro l
  induction l with
  | nil =>
    intro h
    simp only [setA, List.mem_singleton] at h
    exact Or.inl h
  | cons hd tl ih =>
    intro h
    simp only [setA] at h
    split at h
    · rcases List.mem_cons.mp h with h | h
      · exact Or.inl h
      · exact Or.inr (List.mem_cons_of_mem _ h)
    · rcases List.mem_cons.mp h with h | h
      · exact Or.inr (h ▸ List.mem_cons_self _ _)
      · rcases ih h with h | h
        · exact Or.inl h
        · exact Or.inr (List.mem_cons_of_mem _ h)

theorem mem_eraseA {α : Type} {e : String × α} {k : String} :
    ∀ {l : List (String × α)}, e ∈ eraseA k l → e ∈ l := by
  intro l
  induction l with
  | nil => intro h; simp [eraseA] at h
  | cons hd tl ih =>
    intro h
    simp only [eraseA] at h
    split at h
    · exact List.mem_cons_of_mem _ h
    · rcases List.mem_cons.mp h with h | h
      · exact h ▸ List.mem_cons_self _ _
      · exact List.mem_cons_of_mem _ (ih h)

theorem lookupA_setA_self {α : Type} (k : String) (v : α) :
    ∀ (l : List (String × α)), lookupA k (setA k v l) = some v := by
  intro l
  induction l with
  | nil => simp [setA, lookupA]
  | cons hd tl ih =>
    obtain ⟨k1, v1⟩ := hd
    by_cases heq : k1 = k
    · simp [setA, heq, lookupA]
    · simp [setA, heq, lookupA, ih]

theorem lookupA_setA_ne {α : Type} {k k' : String} (v : α) (hne : k' ≠ k) :
    ∀ (l : List (String × α)), lookupA k' (setA k v l) = lookupA k' l := by
  intro l
  induction l with
  | nil => simp [setA, lookupA, Ne.symm hne]
  | cons hd tl ih =>
    obtain ⟨k1, v1⟩ := hd
    by_cases heq : k1 = k
    · subst heq
      simp [setA, lookupA, Ne.symm hne]
    · simp only [setA, if_neg heq, lookupA]
      split
      · rfl
      · exact ih

theorem lookupA_eraseA_ne {α : Type} {k k' : String} (hne : k' ≠ k) :
    ∀ (l : List (String × α)), lookupA k' (eraseA k l) = lookupA k' l := by
  intro l
  induction l with
  | nil => simp [eraseA]
  | cons hd tl ih =>
    obtain ⟨k1, v1⟩ := hd
    by_cases heq : k1 = k
    · subst heq
      simp [eraseA, lookupA, Ne.symm hne]
    · simp only [eraseA, if_neg heq, lookupA]
      split
      · rfl
      · exact ih

theorem lookupA_eq_none_of_not_mem {α : Type} {k : String} :
    ∀ {l : List (String × α)}, k ∉ l.map Prod.fst → lookupA k l = none := by
  intro l
  induction l with
  | nil => intro _; rfl
  | cons hd tl ih =>
    obtain ⟨k1, v1⟩ := hd
    intro h
    simp only [List.map_cons, List.mem_cons] at h
    push_neg at h
    have hne : ¬k1 = k := fun h' => h.1 h'.symm
    simp only [lookupA, if_neg hne]
    exact ih h.2

theorem lookupA_eraseA_self {α : Type} {k : String} :
    ∀ {l : List (String × α)}, keysNodup l → lookupA k (eraseA k l) = none := by
  intro l
  induction l with
  | nil => intro _; simp [eraseA, lookupA]
  | cons hd tl ih =>
    obtain ⟨k1, v1⟩ := hd
    intro hnd
    simp only [keysNodup, List.map_cons, List.nodup_cons] at hnd
    by_cases heq : k1 = k
    · subst heq
      simp only [eraseA, if_pos rfl]
      exact lookupA_eq_none_of_not_mem hnd.1
    · simp only [eraseA, if_neg heq, lookupA, if_neg heq]
      exact ih hnd.2

theorem length_setAdd_le (x : String) (l : List String) :
    (setAdd x l).length ≤ l.length + 1 := by
  unfold setAdd
  split
  · omega
  · simp

/-- Per-member session metadata kept by the registry.  `joinRoom` always
stores a join timestamp; `updateUserInfo` can create an entry without one
(the JavaScript merge of a partial object), hence the `Option`. -/
structure UserInfo where
  isMuted : Bool
  joinedAt : Option Nat
deriving DecidableEq

/-- The Room Registry of `server.js`: `rooms` maps a room code to its member
set, `userRooms` maps a connection id to its current room code, and
`userInfo` holds per-member metadata. -/
structure RoomManager where
  rooms : List (String × List String)
  userRooms : List (String × String)
  userInfo : List (String × UserInfo)
deriving DecidableEq

/-- The registry in its initial state. -/
def RoomManager.empty : RoomManager := ⟨[], [], []⟩

/-- Result record of `RoomManager.joinRoom`.  The source returns
`{success:false, error}` on rejection and `{success:true, roomSize,
isFirstUser}` on acceptance; fields absent in the source record are `""`,
`0` and `false` here. -/
structure JoinResult where
  success : Bool
  error : String
  roomSize : Nat
  isFirstUser : Bool
deriving DecidableEq

/-- Constant `CONFIG.MAX_CLIENTS_PER_ROOM` in `server.js`. -/
def MAX_CLIENTS_PER_ROOM : Nat := 8

/-- Method `RoomManager.leaveCurrentRoom`: removes the connection from its current
room (deleting the room if it becomes empty) and drops the connection's
`userRooms` and `userInfo` entries.  Note the JavaScript guard
`if (!currentRoomId) return null` also fires on the falsy empty string. -/
def RoomManager.leaveCurrentRoom (rm : RoomManager) (socketId : String) :
    RoomManager × Option String :=
  match lookupA socketId rm.userRooms with
  | none => (rm, none)
  | some currentRoomId =>
    if currentRoomId = "" then (rm, none)
    else
      let rooms1 :=
        match lookupA currentRoomId rm.rooms with
        | none => rm.rooms
        | some members =>
          let members1 := members.erase socketId
          if members1.length = 0 then eraseA currentRoomId rm.rooms
          else setA currentRoomId members1 rm.rooms
      (⟨rooms1, eraseA socketId rm.userRooms, eraseA socketId rm.userInfo⟩,
       some currentRoomId)

/-- Method `RoomManager.joinRoom`: first performs the implicit leave of any current
room, then creates the target room if absent, rejects if the room is at
capacity, and otherwise adds the connection and records its metadata. -/
def RoomManager.joinRoom (rm : RoomManager) (socketId roomId : String) (now : Nat) :
    RoomManager × JoinResult :=
  let rm1 := (rm.leaveCurrentRoom socketId).1
  let rooms1 :=
    if (lookupA roomId rm1.rooms).isNone then setA roomId [] rm1.rooms else rm1.rooms
  let room := (lookupA roomId rooms1).getD []
  if MAX_CLIENTS_PER_ROOM ≤ room.length then
    (⟨rooms1, rm1.userRooms, rm1.userInfo⟩,
     ⟨false, "Room is full", 0, false⟩)
  else
    let room1 := setAdd socketId room
    (⟨setA roomId room1 rooms1,
      setA socketId roomId rm1.userRooms,
      setA socketId ⟨false, some now⟩ rm1.userInfo⟩,
     ⟨true, "", room1.length, room1.length == 1⟩)

/-- Method `RoomManager.getRoomUsers`. -/
def RoomManager.getRoomUsers (rm : RoomManager) (roomId : String) : List String :=
  (lookupA roomId rm.rooms).getD []

/-- Method `RoomManager.getUserRoom`. -/
def RoomManager.getUserRoom (rm : RoomManager) (socketId : String) : Option String :=
  lookupA socketId rm.userRooms

/-- Method `RoomManager.updateUserInfo`, specialised to the only call site, which
merges `{isMuted}` into whatever entry exists (or into the empty object). -/
def RoomManager.updateUserInfoMuted (rm : RoomManager) (socketId : String) (m : Bool) :
    RoomManager :=
  match lookupA socketId rm.userInfo with
  | some i => { rm with userInfo := setA socketId { i with isMuted := m } rm.userInfo }
  | none => { rm with userInfo := setA socketId ⟨m, none⟩ rm.userInfo }

/-- The registry-level operations a client can cause: an (unvalidated) join,
an explicit leave, and a transport disconnect.  The `leave-room` and
`disconnect` handlers both call `leaveCurrentRoom`. -/
inductive RegistryOp where
  | join (socketId roomId : String) (now : Nat)
  | leave (socketId : String)
  | disconnect (socketId : String)
deriving DecidableEq

/-- Effect of one registry operation on the registry state. -/
def RoomManager.applyOp (rm : RoomManager) : RegistryOp → RoomManager
  | .join sid r now => (rm.joinRoom sid r now).1
  | .leave sid => (rm.leaveCurrentRoom sid).1
  | .disconnect sid => (rm.leaveCurrentRoom sid).1

/-- Fold a sequence of registry operations over a starting state. -/
def RoomManager.run (rm : RoomManager) (ops : List RegistryOp) : RoomManager :=
  ops.foldl RoomManager.applyOp rm

/-- Capacity invariant: every room in the registry has at most
`MAX_CLIENTS_PER_ROOM` members. -/
def RoomManager.capOK (rm : RoomManager) : Prop :=
  ∀ e ∈ rm.rooms, e.2.length ≤ MAX_CLIENTS_PER_ROOM

theorem capOK_leaveCurrentRoom (rm : RoomManager) (sid : String) (h : rm.capOK) :
    (rm.leaveCurrentRoom sid).1.capOK := by
  unfold RoomManager.leaveCurrentRoom
  cases hur : lookupA sid rm.userRooms with
  | none => exact h
  | some r =>
    by_cases hr : r = ""
    · simp only [hr, if_pos rfl]
      exact h
    · simp only [if_neg hr]
      intro e he
      simp only at he
      cases hm : lookupA r rm.rooms with
      | none =>
        rw [hm] at he
        exact h e he
      | some members =>
        rw [hm] at he
        simp only at he
        by_cases hlen : (members.erase sid).length = 0
        · rw [if_pos hlen] at he
          exact h e (mem_eraseA he)
        · rw [if_neg hlen] at he
          rcases mem_setA he with he | he
          · subst he
            have h1 : members.length ≤ MAX_CLIENTS_PER_ROOM :=
              h (r, members) (lookupA_mem hm)
            have h2 : (members.erase sid).length ≤ members.length :=
              List.length_erase_le sid members
            simp only
            omega
          · exact h e he

theorem capOK_addMember (rooms1 : List (String × List String)) (r sid : String)
    (h2 : ∀ e ∈ rooms1, e.2.length ≤ MAX_CLIENTS_PER_ROOM)
    (hcap : ¬MAX_CLIENTS_PER_ROOM ≤ ((lookupA r rooms1).getD []).length) :
    ∀ e ∈ setA r (setAdd sid ((lookupA r rooms1).getD [])) rooms1,
      e.2.length ≤ MAX_CLIENTS_PER_ROOM := by
  intro e he
  rcases mem_setA he with he | he
  · subst he
    have h3 := length_setAdd_le sid ((lookupA r rooms1).getD [])
    simp only
    omega
  · exact h2 e he

theorem capOK_joinRoom (rm : RoomManager) (sid r : String) (now : Nat) (h : rm.capOK) :
    (rm.joinRoom sid r now).1.capOK := by
  have h1 : (rm.leaveCurrentRoom sid).1.capOK := capOK_leaveCurrentRoom rm sid h
  simp only [RoomManager.joinRoom]
  split
  · have h2 : ∀ e ∈ setA r [] (rm.leaveCurrentRoom sid).1.rooms,
        e.2.length ≤ MAX_CLIENTS_PER_ROOM := by
      intro e he
      rcases mem_setA he with he | he
      · subst he; simp [MAX_CLIENTS_PER_ROOM]
      · exact h1 e he
    split
    · intro e he
      exact h2 e he
    · next hcap =>
        intro e he
        exact capOK_addMember _ r sid h2 hcap e he
  · split
    · intro e he
      exact h1 e he
    · next hcap =>
        intro e he
        exact capOK_addMember _ r sid h1 hcap e he

theorem capOK_applyOp (rm : RoomManager) (op : RegistryOp) (h : rm.capOK) :
    (rm.applyOp op).capOK := by
  cases op with
  | join sid r now => exact capOK_joinRoom rm sid r now h
  | leave sid => exact capOK_leaveCurrentRoom rm sid h
  | disconnect sid => exact capOK_leaveCurrentRoom rm sid h

theorem capOK_run (rm : RoomManager) (ops : List RegistryOp) (h : rm.capOK) :
    (rm.run ops).capOK := by
  induction ops generalizing rm with
  | nil => exact h
  | cons op ops ih =>
    exact ih (rm.applyOp op) (capOK_applyOp rm op h)

theorem capOK_empty : RoomManager.empty.capOK := by
  intro e he
  simp [RoomManager.empty] at he

/-- Messages the relay emits to clients (the `socket.emit` / `io.to(...).emit`
payloads of `server.js`). -/
inductive OutMsg where
  | roomJoined (roomId : String) (isFirstUser : Bool) (roomSize : Nat)
  | roomError (message : String)
  | errorMsg (message : String)
  | userJoined (id : String)
  | userLeft (id : String)
  | userMuteStatus (userId : String) (isMuted : Bool)
  | offer (sdp : String) (sender : String)
  | answer (sdp : String) (sender : String)
  | iceCandidate (candidate : String) (sender : String)
deriving DecidableEq

/-- The `stats` counters of `server.js` that the handlers mutate. -/
structure Stats where
  totalConnections : Nat
  currentConnections : Nat
  messagesRelayed : Nat
deriving DecidableEq

/-- Relay-side state: the Room Registry, the Socket.IO room membership map
(each connected socket sits in a room named by its own id, plus any room it
joined via `socket.join`), the counters, and the ordered outbox of emitted
(recipient, message) pairs. -/
structure ServerState where
  rm : RoomManager
  ioRooms : List (String × List String)
  stats : Stats
  outbox : List (String × OutMsg)
deriving DecidableEq

/-- Primitive `socket.emit`: deliver one message to one connection. -/
def socketEmit (s : ServerState) (sid : String) (msg : OutMsg) : ServerState :=
  { s with outbox := s.outbox ++ [(sid, msg)] }

/-- Primitive `io.to(name).emit`: deliver to every socket in the Socket.IO room called
`name`; delivers to nobody when no such room exists. -/
def ioEmit (s : ServerState) (name : String) (msg : OutMsg) : ServerState :=
  let members := (lookupA name s.ioRooms).getD []
  { s with outbox := s.outbox ++ members.map (fun m => (m, msg)) }

/-- Primitive `socket.to(name).emit`: broadcast to the Socket.IO room except the
sending socket itself. -/
def socketBroadcast (s : ServerState) (name selfId : String) (msg : OutMsg) :
    ServerState :=
  let members := ((lookupA name s.ioRooms).getD []).filter (fun m => m ≠ selfId)
  { s with outbox := s.outbox ++ members.map (fun m => (m, msg)) }

/-- Primitive `socket.join`. -/
def sioJoin (s : ServerState) (sid name : String) : ServerState :=
  { s with ioRooms := setA name (setAdd sid ((lookupA name s.ioRooms).getD [])) s.ioRooms }

/-- Primitive `socket.leave`. -/
def sioLeave (s : ServerState) (sid name : String) : ServerState :=
  { s with ioRooms := setA name (((lookupA name s.ioRooms).getD []).erase sid) s.ioRooms }

/-- The `io.on('connection')` bookkeeping: counters and the automatic
Socket.IO room named by the socket's own id. -/
def onConnection (s : ServerState) (sid : String) : ServerState :=
  let s1 := { s with stats := { s.stats with
    totalConnections := s.stats.totalConnections + 1,
    currentConnections := s.stats.currentConnections + 1 } }
  sioJoin s1 sid sid

/-- The `join-room` handler.  The validation guard `!roomId || typeof roomId
!== 'string' || roomId.length > 20` emits the `error` event (not
`room-error`); a registry rejection emits `room-error`; on success the
socket joins the Socket.IO room, other members receive `user-joined`, and
the joiner receives `room-joined`. -/
def onJoinRoom (s : ServerState) (sid roomId : String) (now : Nat) : ServerState :=
  if roomId = "" ∨ 20 < roomId.length then
    socketEmit s sid (.errorMsg "Invalid room ID")
  else
    let rr := s.rm.joinRoom sid roomId now
    let s1 := { s with rm := rr.1 }
    if rr.2.success = false then
      socketEmit s1 sid (.roomError rr.2.error)
    else
      let s2 := sioJoin s1 sid roomId
      let otherUsers := (rr.1.getRoomUsers roomId).filter (fun i => i ≠ sid)
      let s3 :=
        if 0 < otherUsers.length then socketBroadcast s2 roomId sid (.userJoined sid)
        else s2
      socketEmit s3 sid (.roomJoined roomId rr.2.isFirstUser rr.2.roomSize)

/-- The `mute-status` handler. -/
def onMuteStatus (s : ServerState) (sid : String) (m : Bool) : ServerState :=
  match s.rm.getUserRoom sid with
  | some roomId =>
    let s1 := { s with rm := s.rm.updateUserInfoMuted sid m }
    socketBroadcast s1 roomId sid (.userMuteStatus sid m)
  | none => s

/-- The `offer` relay handler: validates presence of `target` and `sdp`
(absent and empty are both falsy), forwards the sdp verbatim to the target
tagged with the sender id, and bumps `stats.messagesRelayed`. -/
def onOffer (s : ServerState) (sid target sdp : String) : ServerState :=
  if target = "" ∨ sdp = "" then s
  else
    let s1 := ioEmit s target (.offer sdp sid)
    { s1 with stats := { s1.stats with messagesRelayed := s1.stats.messagesRelayed + 1 } }

/-- The `answer` relay handler. -/
def onAnswer (s : ServerState) (sid target sdp : String) : ServerState :=
  if target = "" ∨ sdp = "" then s
  else
    let s1 := ioEmit s target (.answer sdp sid)
    { s1 with stats := { s1.stats with messagesRelayed := s1.stats.messagesRelayed + 1 } }

/-- The `ice-candidate` relay handler. -/
def onIceCandidate (s : ServerState) (sid target candidate : String) : ServerState :=
  if target = "" ∨ candidate = "" then s
  else
    let s1 := ioEmit s target (.iceCandidate candidate sid)
    { s1 with stats := { s1.stats with messagesRelayed := s1.stats.messagesRelayed + 1 } }

/-- The `leave-room` handler. -/
def onLeaveRoom (s : ServerState) (sid : String) : ServerState :=
  let lr := s.rm.leaveCurrentRoom sid
  match lr.2 with
  | some roomId =>
    let s1 := { s with rm := lr.1 }
    let s2 := socketBroadcast s1 roomId sid (.userLeft sid)
    sioLeave s2 sid roomId
  | none => { s with rm := lr.1 }

/-- The `disconnect` handler, followed by Socket.IO dropping the socket from
every room it was in. -/
def onDisconnect (s : ServerState) (sid : String) : ServerState :=
  let s0 := { s with stats := { s.stats with
    currentConnections := s.stats.currentConnections - 1 } }
  let lr := s0.rm.leaveCurrentRoom sid
  let s1 := { s0 with rm := lr.1 }
  let s2 :=
    match lr.2 with
    | some roomId => socketBroadcast s1 roomId sid (.userLeft sid)
    | none => s1
  { s2 with ioRooms := s2.ioRooms.map (fun e => (e.1, e.2.erase sid)) }

/-- One `RTCPeerConnection` as the WebRTC service observes it: the local and
remote session descriptions that have been applied, and the ICE candidates
passed to `addIceCandidate`, in the order they were applied.  The source's
`WebRTCService` keeps no other per-peer negotiation data — in particular it
has no queue of early candidates. -/
structure PeerConn where
  localDesc : Option String
  remoteDesc : Option String
  applied : List String
deriving DecidableEq

/-- The client-side `WebRTCService`: the local media stream flag (whether
`getUserMedia` has succeeded) and the `peerConnections` map. -/
structure WebRTCService where
  localStream : Bool
  peerConnections : List (String × PeerConn)
deriving DecidableEq

/-- Method `WebRTCService.createOffer`: builds a fresh peer connection, stores it
under the value `generatePeerId()` returned (passed here as `peerId` — the
method takes no target argument), applies the local description produced by
the browser (passed here as `offerSdp`), and returns the offer. -/
def WebRTCService.createOffer (w : WebRTCService) (peerId offerSdp : String) :
    WebRTCService × String :=
  let pc : PeerConn := ⟨some offerSdp, none, []⟩
  ({ w with peerConnections := setA peerId pc w.peerConnections }, offerSdp)

/-- Method `WebRTCService.handleOffer`: builds a fresh peer connection keyed by the
sender id, applies the inbound offer as remote description, applies the
locally produced answer (passed here as `answerSdp`), and returns it.  There
is no check for an existing connection or a pending own offer. -/
def WebRTCService.handleOffer (w : WebRTCService) (offer senderId answerSdp : String) :
    WebRTCService × String :=
  let pc : PeerConn := ⟨some answerSdp, some offer, []⟩
  ({ w with peerConnections := setA senderId pc w.peerConnections }, answerSdp)

/-- Method `WebRTCService.handleAnswer`: applies the answer as remote description on
the connection keyed by the sender id, a no-op when no such key exists. -/
def WebRTCService.handleAnswer (w : WebRTCService) (answer senderId : String) :
    WebRTCService :=
  match lookupA senderId w.peerConnections with
  | some pc =>
    let pc1 := { pc with remoteDesc := some answer }
    { w with peerConnections := setA senderId pc1 w.peerConnections }
  | none => w

/-- Method `WebRTCService.addIceCandidate`: applies the candidate only when a
connection keyed by the sender id exists and its remote description has been
applied; in every other case the candidate is discarded with no record. -/
def WebRTCService.addIceCandidate (w : WebRTCService) (candidate senderId : String) :
    WebRTCService :=
  match lookupA senderId w.peerConnections with
  | some pc =>
    if pc.remoteDesc.isSome then
      let pc1 := { pc with applied := pc.applied ++ [candidate] }
      { w with peerConnections := setA senderId pc1 w.peerConnections }
    else w
  | none => w

/-- Method `WebRTCService.removePeer`. -/
def WebRTCService.removePeer (w : WebRTCService) (peerId : String) : WebRTCService :=
  { w with peerConnections := eraseA peerId w.peerConnections }

/-- A roster entry of the `useCallEngine` call state. -/
structure Participant where
  id : String
  isMuted : Bool
  isConnected : Bool
  joinedAt : Nat
deriving DecidableEq

/-- Signaling messages the client emits to the relay. -/
inductive ClientMsg where
  | offer (target sdp : String)
  | answer (target sdp : String)
  | iceCandidate (target candidate : String)
deriving DecidableEq

/-- The `useCallEngine` orchestrator state: the owned `WebRTCService`, the
participant roster, the ordered list of signaling messages emitted via
`socketService.emit`, whether a local audio stream has been delivered to the
UI, and the `isConnecting` flag. -/
structure Client where
  webrtc : WebRTCService
  participants : List Participant
  sent : List ClientMsg
  localAudioSet : Bool
  isConnecting : Bool
deriving DecidableEq

/-- The orchestrator's `handleOffer` callback: asks the service for an
answer, emits it addressed to the original sender, and marks that sender
connected in the roster. -/
def Client.handleOffer (c : Client) (sdp sender answerSdp : String) : Client :=
  let wr := c.webrtc.handleOffer sdp sender answerSdp
  { c with
    webrtc := wr.1,
    sent := c.sent ++ [ClientMsg.answer sender wr.2],
    participants := c.participants.map
      (fun p => if p.id = sender then { p with isConnected := true } else p) }

/-- The orchestrator's `handleAnswer` callback. -/
def Client.handleAnswer (c : Client) (sdp sender : String) : Client :=
  { c with
    webrtc := c.webrtc.handleAnswer sdp sender,
    participants := c.participants.map
      (fun p => if p.id = sender then { p with isConnected := true } else p),
    isConnecting := false }

/-- The orchestrator's `handleIceCandidate` callback: hands the candidate
straight to the service. -/
def Client.handleIceCandidate (c : Client) (candidate sender : String) : Client :=
  { c with webrtc := c.webrtc.addIceCandidate candidate sender }

/-- The orchestrator's `initiateConnection`: records the remote in the
roster and, only when a local stream is already available, creates an offer
(stored by the service under the fresh `generatePeerId()` value passed here
as `freshPeerId`) and emits it to the remote.  When no local stream is
available it logs a warning and does nothing else — the remote is not
recorded for a later retry. -/
def Client.initiateConnection (c : Client) (userId freshPeerId offerSdp : String)
    (now : Nat) : Client :=
  let c1 := { c with participants :=
    c.participants ++ [Participant.mk userId false false now] }
  if c1.webrtc.localStream then
    let wr := c1.webrtc.createOffer freshPeerId offerSdp
    { c1 with webrtc := wr.1, sent := c1.sent ++ [ClientMsg.offer userId wr.2] }
  else c1

/-- The effect of `WebRTCService.initialize()` succeeding: `localStream` is
set and the `localStream` event fires, whose only listener
(`handleLocalStream`) stores the stream for the UI.  No other listener is
registered for this event, so no offer creation is triggered here. -/
def Client.mediaReady (c : Client) : Client :=
  { c with webrtc := { c.webrtc with localStream := true }, localAudioSet := true }

/-- Number of answer messages in an emission list. -/
def countAnswers (l : List ClientMsg) : Nat :=
  (l.filter (fun m => match m with | .answer _ _ => true | _ => false)).length

/-- Number of offer messages in an emission list. -/
def countOffers (l : List ClientMsg) : Nat :=
  (l.filter (fun m => match m with | .offer _ _ => true | _ => false)).length

/-- Recognises a `room-error` emission. -/
def isRoomError : OutMsg → Bool
  | .roomError _ => true
  | _ => false

/-- The implicit leave performed by `joinRoom` does not disturb a room the
leaving connection is not a member of (given the member set is non-empty). -/
theorem lookupA_rooms_leave_of_not_mem (rm : RoomManager) (x R : String)
    (mem : List String) (hR : lookupA R rm.rooms = some mem) (hx : x ∉ mem)
    (hne : mem ≠ []) :
    lookupA R (rm.leaveCurrentRoom x).1.rooms = some mem := by
  unfold RoomManager.leaveCurrentRoom
  cases hur : lookupA x rm.userRooms with
  | none => simpa using hR
  | some r1 =>
    by_cases hr : r1 = ""
    · simp only [if_pos hr]
      simpa using hR
    · simp only [if_neg hr]
      cases hm : lookupA r1 rm.rooms with
      | none => simpa using hR
      | some mem1 =>
        by_cases heq : r1 = R
        · subst heq
          rw [hR] at hm
          injection hm with hm
          subst hm
          have he : mem.erase x = mem := List.erase_of_not_mem hx
          have hz : ¬mem.length = 0 := fun h0 => hne (List.length_eq_zero.mp h0)
          simp only [he, if_neg hz]
          exact lookupA_setA_self r1 mem rm.rooms
        · have hRr : R ≠ r1 := fun h => heq h.symm
          by_cases hz : (mem1.erase x).length = 0
          · simp only [if_pos hz]
            rw [lookupA_eraseA_ne hRr]
            exact hR
          · simp only [if_neg hz]
            rw [lookupA_setA_ne _ hRr]
            exact hR

/-- The implicit leave preserves the absence of a room. -/
theorem lookupA_rooms_leave_none (rm : RoomManager) (y R : String)
    (hR : lookupA R rm.rooms = none) :
    lookupA R (rm.leaveCurrentRoom y).1.rooms = none := by
  unfold RoomManager.leaveCurrentRoom
  cases hur : lookupA y rm.userRooms with
  | none => simpa using hR
  | some r1 =>
    by_cases hr : r1 = ""
    · simp only [if_pos hr]
      simpa using hR
    · simp only [if_neg hr]
      cases hm : lookupA r1 rm.rooms with
      | none => simpa using hR
      | some mem1 =>
        have hne : R ≠ r1 := by
          intro h
          rw [h, hm] at hR
          cases hR
        by_cases hz : (mem1.erase y).length = 0
        · simp only [if_pos hz]
          rw [lookupA_eraseA_ne hne]
          exact hR
        · simp only [if_neg hz]
          rw [lookupA_setA_ne _ hne]
          exact hR

/-- A join request targeting a full room by a connection that is not among
its members is rejected; the registry it returns is exactly the state after
the implicit leave, and the join result is the `Room is full` record. -/
theorem joinRoom_full_rejects (rm : RoomManager) (x R : String) (mem : List String)
    (now : Nat) (hR : lookupA R rm.rooms = some mem)
    (hfull : MAX_CLIENTS_PER_ROOM ≤ mem.length) (hx : x ∉ mem) :
    (rm.joinRoom x R now).2 = JoinResult.mk false "Room is full" 0 false ∧
    (rm.joinRoom x R now).1 = (rm.leaveCurrentRoom x).1 := by
  have hne : mem ≠ [] := by
    intro h
    rw [h] at hfull
    simp [MAX_CLIENTS_PER_ROOM] at hfull
  have h1 : lookupA R (rm.leaveCurrentRoom x).1.rooms = some mem :=
    lookupA_rooms_leave_of_not_mem rm x R mem hR hx hne
  constructor <;>
    simp only [RoomManager.joinRoom, h1, Option.isNone_some, Bool.false_eq_true,
      if_false, Option.getD_some, if_pos hfull]

/-- A join into a code with no current room succeeds as the first user. -/
theorem joinRoom_fresh (rm : RoomManager) (y R : String) (now : Nat)
    (hR : lookupA R rm.rooms = none) :
    (rm.joinRoom y R now).2.success = true ∧
    (rm.joinRoom y R now).2.isFirstUser = true ∧
    (rm.joinRoom y R now).2.roomSize = 1 := by
  have h1 : lookupA R (rm.leaveCurrentRoom y).1.rooms = none :=
    lookupA_rooms_leave_none rm y R hR
  simp only [RoomManager.joinRoom, h1, Option.isNone_none, if_true,
    lookupA_setA_self, Option.getD_some, setAdd, List.not_mem_nil, if_neg,
    List.nil_append, List.length_cons, List.length_nil, MAX_CLIENTS_PER_ROOM]
  norm_num

/-- Registry with a full room whose 8 members include the requester `x`. -/
def rmSelfRejoin : RoomManager :=
  ⟨[("B", ["x", "b2", "b3", "b4", "b5", "b6", "b7", "b8"])],
   [("x", "B")], [("x", ⟨false, some 0⟩)]⟩

/-- Claim C1 counterexample: room `B` already has 8 members, one of which is
the requester `x` itself.  The claim requires every join request to a room
that already has 8 members to be rejected, but this one succeeds, because
`joinRoom` performs the implicit leave (removing `x`, leaving 7 members)
before the capacity check. -/
theorem claim1_room_capacity_cex :
    ((lookupA "B" rmSelfRejoin.rooms).getD []).length = 8 ∧
    (rmSelfRejoin.joinRoom "x" "B" 5).2.success = true ∧
    (rmSelfRejoin.joinRoom "x" "B" 5).2.roomSize = 8 := by
  decide

/-- Claim C1 (amended): for every sequence of join, leave, and disconnect
operations starting from the empty registry, the member set of every room
has size at most 8; and a join request by a connection that is not among the
target room's members, when that room already has 8 (or more) members, is
rejected and leaves that room's member set unchanged.  (The qualification
"not among the room's members" is forced: a member of a full room that
re-joins it succeeds, because the implicit leave removes it before the
capacity check — see the counterexample.) -/
theorem claim1_room_capacity
    (ops : List RegistryOp) (rm : RoomManager) (x R : String)
    (mem : List String) (now : Nat)
    (hR : lookupA R rm.rooms = some mem)
    (hfull : MAX_CLIENTS_PER_ROOM ≤ mem.length)
    (hx : x ∉ mem) :
    (RoomManager.empty.run ops).capOK ∧
    (rm.joinRoom x R now).2.success = false ∧
    lookupA R (rm.joinRoom x R now).1.rooms = some mem := by
  have hne : mem ≠ [] := by
    intro h
    rw [h] at hfull
    simp [MAX_CLIENTS_PER_ROOM] at hfull
  have hrej := joinRoom_full_rejects rm x R mem now hR hfull hx
  refine ⟨capOK_run RoomManager.empty ops capOK_empty, ?_, ?_⟩
  · rw [hrej.1]
  · rw [hrej.2]
    exact lookupA_rooms_leave_of_not_mem rm x R mem hR hx hne

/-- Registry holding a full room `B` disjoint from the requester `x9`. -/
def rmFullB : RoomManager :=
  ⟨[("B", ["b1", "b2", "b3", "b4", "b5", "b6", "b7", "b8"])], [], []⟩

/-- Witness for claim C1 at a concrete full room and outside requester. -/
theorem claim1_room_capacity_witness :
    (lookupA "B" rmFullB.rooms = some ["b1", "b2", "b3", "b4", "b5", "b6", "b7", "b8"] ∧
     MAX_CLIENTS_PER_ROOM ≤ (["b1", "b2", "b3", "b4", "b5", "b6", "b7", "b8"] : List String).length ∧
     "x9" ∉ ["b1", "b2", "b3", "b4", "b5", "b6", "b7", "b8"]) ∧
    ((RoomManager.empty.run [RegistryOp.join "a" "R" 0]).capOK ∧
     (rmFullB.joinRoom "x9" "B" 7).2.success = false ∧
     lookupA "B" (rmFullB.joinRoom "x9" "B" 7).1.rooms =
       some ["b1", "b2", "b3", "b4", "b5", "b6", "b7", "b8"]) :=
  ⟨⟨by decide, by decide, by decide⟩,
   claim1_room_capacity [RegistryOp.join "a" "R" 0] rmFullB "x9" "B"
     ["b1", "b2", "b3", "b4", "b5", "b6", "b7", "b8"] 7
     (by decide) (by decide) (by decide)⟩

/-- Claim C7: a leave by the last member of a room deletes the room (the
explicit `leave-room` handler and the `disconnect` handler perform the
identical registry operation), and any subsequent join with the same code
creates a fresh room whose result has `isFirstUser = true` and
`roomSize = 1`.  The hypotheses say the room code is a real (non-falsy)
code, that `x` is its only member, and that the rooms map has the
unique-key property every JavaScript `Map` has. -/
theorem claim7_last_leave_deletes_room
    (rm : RoomManager) (x R : String)
    (hur : lookupA x rm.userRooms = some R)
    (hR : lookupA R rm.rooms = some [x])
    (hRne : R ≠ "")
    (hnd : keysNodup rm.rooms) :
    (rm.leaveCurrentRoom x).2 = some R ∧
    lookupA R (rm.leaveCurrentRoom x).1.rooms = none ∧
    (∀ rm1 : RoomManager, RoomManager.applyOp rm1 (RegistryOp.leave x) =
      RoomManager.applyOp rm1 (RegistryOp.disconnect x)) ∧
    (∀ y : String, ∀ now : Nat,
      (((rm.leaveCurrentRoom x).1.joinRoom y R now).2.success = true ∧
       ((rm.leaveCurrentRoom x).1.joinRoom y R now).2.isFirstUser = true ∧
       ((rm.leaveCurrentRoom x).1.joinRoom y R now).2.roomSize = 1)) := by
  have hdel : lookupA R (rm.leaveCurrentRoom x).1.rooms = none := by
    unfold RoomManager.leaveCurrentRoom
    rw [hur]
    simp only [if_neg hRne, hR, List.erase_cons_head, List.length_nil, if_pos rfl]
    exact lookupA_eraseA_self hnd
  refine ⟨?_, hdel, fun rm1 => rfl, fun y now => joinRoom_fresh _ y R now hdel⟩
  unfold RoomManager.leaveCurrentRoom
  rw [hur]
  simp only [if_neg hRne]

/-- Registry whose room `R` has the single member `x`. -/
def rmLastMember : RoomManager :=
  ⟨[("R", ["x"])], [("x", "R")], [("x", ⟨false, some 3⟩)]⟩

/-- Witness for claim C7 at a concrete one-member room. -/
theorem claim7_last_leave_deletes_room_witness :
    (lookupA "x" rmLastMember.userRooms = some "R" ∧
     lookupA "R" rmLastMember.rooms = some ["x"] ∧
     "R" ≠ "" ∧ keysNodup rmLastMember.rooms) ∧
    ((rmLastMember.leaveCurrentRoom "x").2 = some "R" ∧
     lookupA "R" (rmLastMember.leaveCurrentRoom "x").1.rooms = none ∧
     (∀ rm1 : RoomManager, RoomManager.applyOp rm1 (RegistryOp.leave "x") =
       RoomManager.applyOp rm1 (RegistryOp.disconnect "x")) ∧
     (∀ y : String, ∀ now : Nat,
       (((rmLastMember.leaveCurrentRoom "x").1.joinRoom y "R" now).2.success = true ∧
        ((rmLastMember.leaveCurrentRoom "x").1.joinRoom y "R" now).2.isFirstUser = true ∧
        ((rmLastMember.leaveCurrentRoom "x").1.joinRoom y "R" now).2.roomSize = 1))) :=
  ⟨⟨by decide, by decide, by decide, by decide⟩,
   claim7_last_leave_deletes_room rmLastMember "x" "R"
     (by decide) (by decide) (by decide) (by decide)⟩

/-- When the connection is in a (non-falsy) room, `leaveCurrentRoom` erases
its `userRooms` and `userInfo` entries. -/
theorem leave_erases_user (rm : RoomManager) (x A : String)
    (hxA : lookupA x rm.userRooms = some A) (hAne : A ≠ "") :
    (rm.leaveCurrentRoom x).1.userRooms = eraseA x rm.userRooms ∧
    (rm.leaveCurrentRoom x).1.userInfo = eraseA x rm.userInfo := by
  unfold RoomManager.leaveCurrentRoom
  rw [hxA]
  simp [if_neg hAne]

/-- Registry where `x` sits alone in room `A` while room `B` is full. -/
def rmPriorRoom : RoomManager :=
  ⟨[("A", ["x"]), ("B", ["b1", "b2", "b3", "b4", "b5", "b6", "b7", "b8"])],
   [("x", "A")], [("x", ⟨false, some 0⟩)]⟩

/-- Claim C2 counterexample: `x` is in room `A` and requests to join the
full room `B`.  The request is rejected, yet `x`'s prior membership is NOT
retained: the implicit leave already removed `x` from `A` (deleting the
now-empty room `A`) and dropped its metadata before the capacity check
rejected the join. -/
theorem claim2_rejection_no_state_change_cex :
    (rmPriorRoom.joinRoom "x" "B" 1).2.success = false ∧
    lookupA "x" (rmPriorRoom.joinRoom "x" "B" 1).1.userRooms = none ∧
    lookupA "x" (rmPriorRoom.joinRoom "x" "B" 1).1.userInfo = none ∧
    lookupA "A" (rmPriorRoom.joinRoom "x" "B" 1).1.rooms = none := by
  decide

/-- Claim C2 (amended): an invalid-code rejection is reported to the
requester only with no state change at all; a capacity rejection is
reported to the requester only (as a `room-error`) and leaves the target
room's member set unchanged, but the requester's prior room membership and
metadata are removed, because the implicit leave runs before the capacity
check. -/
theorem claim2_rejection_effects
    (rm : RoomManager) (x R A : String) (mem : List String) (now : Nat)
    (hR : lookupA R rm.rooms = some mem)
    (hfull : MAX_CLIENTS_PER_ROOM ≤ mem.length)
    (hx : x ∉ mem)
    (hxA : lookupA x rm.userRooms = some A) (hAne : A ≠ "")
    (hndu : keysNodup rm.userRooms) (hndi : keysNodup rm.userInfo) :
    (∀ s : ServerState, ∀ sid roomId : String, ∀ t : Nat,
      (roomId = "" ∨ 20 < roomId.length) →
      onJoinRoom s sid roomId t = socketEmit s sid (OutMsg.errorMsg "Invalid room ID")) ∧
    (rm.joinRoom x R now).2.success = false ∧
    lookupA R (rm.joinRoom x R now).1.rooms = some mem ∧
    lookupA x (rm.joinRoom x R now).1.userRooms = none ∧
    lookupA x (rm.joinRoom x R now).1.userInfo = none ∧
    (∀ s : ServerState, s.rm = rm → ¬(R = "" ∨ 20 < R.length) →
      onJoinRoom s x R now =
        socketEmit { s with rm := (rm.joinRoom x R now).1 } x
          (OutMsg.roomError "Room is full")) := by
  have hne : mem ≠ [] := by
    intro h
    rw [h] at hfull
    simp [MAX_CLIENTS_PER_ROOM] at hfull
  have hrej := joinRoom_full_rejects rm x R mem now hR hfull hx
  have herase := leave_erases_user rm x A hxA hAne
  refine ⟨?_, ?_, ?_, ?_, ?_, ?_⟩
  · intro s sid roomId t hval
    unfold onJoinRoom
    rw [if_pos hval]
  · rw [hrej.1]
  · rw [hrej.2]
    exact lookupA_rooms_leave_of_not_mem rm x R mem hR hx hne
  · rw [hrej.2, herase.1]
    exact lookupA_eraseA_self hndu
  · rw [hrej.2, herase.2]
    exact lookupA_eraseA_self hndi
  · intro s hs hval
    unfold onJoinRoom
    rw [if_neg hval]
    simp only [hs, hrej.1]
    simp [socketEmit]

/-- Witness for claim C2 at the concrete prior-room state. -/
theorem claim2_rejection_effects_witness :
    (lookupA "B" rmPriorRoom.rooms =
       some ["b1", "b2", "b3", "b4", "b5", "b6", "b7", "b8"] ∧
     MAX_CLIENTS_PER_ROOM ≤
       (["b1", "b2", "b3", "b4", "b5", "b6", "b7", "b8"] : List String).length ∧
     "x" ∉ ["b1", "b2", "b3", "b4", "b5", "b6", "b7", "b8"] ∧
     lookupA "x" rmPriorRoom.userRooms = some "A" ∧ "A" ≠ "" ∧
     keysNodup rmPriorRoom.userRooms ∧ keysNodup rmPriorRoom.userInfo) ∧
    ((∀ s : ServerState, ∀ sid roomId : String, ∀ t : Nat,
      (roomId = "" ∨ 20 < roomId.length) →
      onJoinRoom s sid roomId t = socketEmit s sid (OutMsg.errorMsg "Invalid room ID")) ∧
     (rmPriorRoom.joinRoom "x" "B" 1).2.success = false ∧
     lookupA "B" (rmPriorRoom.joinRoom "x" "B" 1).1.rooms =
       some ["b1", "b2", "b3", "b4", "b5", "b6", "b7", "b8"] ∧
     lookupA "x" (rmPriorRoom.joinRoom "x" "B" 1).1.userRooms = none ∧
     lookupA "x" (rmPriorRoom.joinRoom "x" "B" 1).1.userInfo = none ∧
     (∀ s : ServerState, s.rm = rmPriorRoom → ¬("B" = "" ∨ 20 < ("B" : String).length) →
       onJoinRoom s "x" "B" 1 =
         socketEmit { s with rm := (rmPriorRoom.joinRoom "x" "B" 1).1 } "x"
           (OutMsg.roomError "Room is full"))) :=
  ⟨⟨by decide, by decide, by decide, by decide, by decide, by decide, by decide⟩,
   claim2_rejection_effects rmPriorRoom "x" "B" "A"
     ["b1", "b2", "b3", "b4", "b5", "b6", "b7", "b8"] 1
     (by decide) (by decide) (by decide) (by decide) (by decide)
     (by decide) (by decide)⟩

/-- A server state with one connected socket `x` and nothing else. -/
def sOneSocket : ServerState :=
  ⟨RoomManager.empty, [("x", ["x"])], ⟨1, 1, 0⟩, []⟩

/-- Claim C6 counterexample: a `join-room` request with the empty room code
is rejected, but the message emitted to the joiner is the `error` event
(payload `Invalid room ID`), not a `room-error` — no `room-error` message is
produced at all. -/
theorem claim6_invalid_code_cex :
    (onJoinRoom sOneSocket "x" "" 0).outbox =
      [("x", OutMsg.errorMsg "Invalid room ID")] ∧
    ((onJoinRoom sOneSocket "x" "" 0).outbox.filter
      (fun e => isRoomError e.2)).length = 0 := by
  decide

/-- Claim C6 (amended): a `join-room` request whose room code is empty or
longer than 20 characters is rejected and an `error` message (payload
`Invalid room ID`) — not a `room-error` — is emitted to the joining
connection only, with no mutation of any room state: the resulting server
state differs from the original only by that one outbox entry. -/
theorem claim6_invalid_code_rejected
    (s : ServerState) (sid roomId : String) (now : Nat)
    (hval : roomId = "" ∨ 20 < roomId.length) :
    onJoinRoom s sid roomId now =
      { s with outbox := s.outbox ++ [(sid, OutMsg.errorMsg "Invalid room ID")] } := by
  unfold onJoinRoom
  rw [if_pos hval]
  rfl

/-- Witness for claim C6 at a concrete oversized room code. -/
theorem claim6_invalid_code_rejected_witness :
    (("ABCDEFGHIJKLMNOPQRSTU" : String) = "" ∨
      20 < ("ABCDEFGHIJKLMNOPQRSTU" : String).length) ∧
    onJoinRoom sOneSocket "x" "ABCDEFGHIJKLMNOPQRSTU" 0 =
      { sOneSocket with outbox :=
          sOneSocket.outbox ++ [("x", OutMsg.errorMsg "Invalid room ID")] } :=
  ⟨by decide,
   claim6_invalid_code_rejected sOneSocket "x" "ABCDEFGHIJKLMNOPQRSTU" 0 (by decide)⟩

/-- The WebRTC service after a self-initiated `createOffer` toward remote
`peerB`: the new peer connection is stored under the fresh random id `r7`. -/
def wAfterOffer : WebRTCService :=
  ((WebRTCService.mk true []).createOffer "r7" "offerSdp").1

/-- Claim C3 counterexample: remote `peerB`'s ICE candidate arrives before
any remote description for `peerB` has been applied (the only peer
connection is keyed by the random id `r7`, with no remote description).
The candidate leaves the service state completely unchanged — it is stored
in no queue — and after the remote description is applied by `handleAnswer`
the applied-candidate list of every connection is still empty, so the
buffered candidate the claim promises is never applied. -/
theorem claim3_ice_buffering_cex :
    wAfterOffer.addIceCandidate "cand1" "peerB" = wAfterOffer ∧
    ((wAfterOffer.addIceCandidate "cand1" "peerB").handleAnswer "ansSdp" "peerB")
      = wAfterOffer ∧
    (wAfterOffer.addIceCandidate "cand1" "peerB").peerConnections.map
      (fun e => e.2.applied) = [[]] := by
  decide

/-- Claim C3 (amended): an ICE candidate received for a sender with no peer
connection entry, or whose peer connection has no remote description yet,
is silently discarded — the service keeps no buffer and never applies it;
a candidate received after the remote description is applied is applied
immediately, appended in arrival order. -/
theorem claim3_ice_candidate_handling (w : WebRTCService) (cand sender : String) :
    (lookupA sender w.peerConnections = none →
      w.addIceCandidate cand sender = w) ∧
    (∀ pc : PeerConn, lookupA sender w.peerConnections = some pc →
      pc.remoteDesc = none → w.addIceCandidate cand sender = w) ∧
    (∀ pc : PeerConn, lookupA sender w.peerConnections = some pc →
      pc.remoteDesc.isSome = true →
      w.addIceCandidate cand sender =
        WebRTCService.mk w.localStream
          (setA sender (PeerConn.mk pc.localDesc pc.remoteDesc (pc.applied ++ [cand]))
            w.peerConnections)) := by
  refine ⟨?_, ?_, ?_⟩
  · intro hno
    unfold WebRTCService.addIceCandidate
    rw [hno]
  · intro pc hpc hrd
    unfold WebRTCService.addIceCandidate
    rw [hpc]
    simp [hrd]
  · intro pc hpc hrd
    unfold WebRTCService.addIceCandidate
    rw [hpc]
    simp [hrd]

/-- A peer connection for `p` whose remote description has been applied. -/
def pcReady : PeerConn := ⟨some "l", some "r", ["c0"]⟩

/-- A service holding only the ready connection for `p`. -/
def wReady : WebRTCService := ⟨true, [("p", pcReady)]⟩

/-- Witness for claim C3: the dropped-candidate case at `wAfterOffer` (no
entry for `peerB`) and the applied-immediately case for a connection whose
remote description is present. -/
theorem claim3_ice_candidate_handling_witness :
    (lookupA "peerB" wAfterOffer.peerConnections = none ∧
     wAfterOffer.addIceCandidate "c9" "peerB" = wAfterOffer) ∧
    (lookupA "p" wReady.peerConnections = some pcReady ∧
     pcReady.remoteDesc.isSome = true ∧
     wReady.addIceCandidate "c9" "p" =
       WebRTCService.mk wReady.localStream
         (setA "p" (PeerConn.mk pcReady.localDesc pcReady.remoteDesc
           (pcReady.applied ++ ["c9"])) wReady.peerConnections)) :=
  ⟨⟨by decide,
    (claim3_ice_candidate_handling wAfterOffer "c9" "peerB").1 (by decide)⟩,
   ⟨by decide, by decide,
    (claim3_ice_candidate_handling wReady "c9" "p").2.2 pcReady
      (by decide) (by decide)⟩⟩

/-- Claim C9: `createOffer` (which receives no target argument at all)
stores the freshly created peer connection under the generated random id,
so as long as no connection keyed by the remote's id exists, a later
`handleAnswer(answer, sender)` from that remote finds no peer connection
keyed by the sender's identifier and returns with the whole service state —
in particular every connection's remote description — unchanged. -/
theorem claim9_answer_silently_ignored
    (w : WebRTCService) (freshId offerSdp answer sender : String)
    (hno : lookupA sender w.peerConnections = none)
    (hne : freshId ≠ sender) :
    lookupA freshId (w.createOffer freshId offerSdp).1.peerConnections =
      some ⟨some offerSdp, none, []⟩ ∧
    (w.createOffer freshId offerSdp).1.handleAnswer answer sender =
      (w.createOffer freshId offerSdp).1 := by
  constructor
  · unfold WebRTCService.createOffer
    exact lookupA_setA_self freshId _ w.peerConnections
  · have hmiss : lookupA sender (w.createOffer freshId offerSdp).1.peerConnections = none := by
      unfold WebRTCService.createOffer
      rw [lookupA_setA_ne _ (Ne.symm hne)]
      exact hno
    unfold WebRTCService.handleAnswer
    rw [hmiss]

/-- Witness for claim C9 at a concrete fresh id and remote id. -/
theorem claim9_answer_silently_ignored_witness :
    (lookupA "remoteB" (WebRTCService.mk true []).peerConnections = none ∧
     ("fresh1" : String) ≠ "remoteB") ∧
    (lookupA "fresh1"
       ((WebRTCService.mk true []).createOffer "fresh1" "offX").1.peerConnections =
       some ⟨some "offX", none, []⟩ ∧
     ((WebRTCService.mk true []).createOffer "fresh1" "offX").1.handleAnswer
         "ansX" "remoteB" =
       ((WebRTCService.mk true []).createOffer "fresh1" "offX").1) :=
  ⟨⟨by decide, by decide⟩,
   claim9_answer_silently_ignored (WebRTCService.mk true []) "fresh1" "offX"
     "ansX" "remoteB" (by decide) (by decide)⟩

theorem countAnswers_append_answer (l : List ClientMsg) (t sdp : String) :
    countAnswers (l ++ [ClientMsg.answer t sdp]) = countAnswers l + 1 := by
  simp [countAnswers, List.filter_append]

/-- Fresh client `A` with a local stream, about to enter the glare race. -/
def glareA0 : Client := ⟨⟨true, []⟩, [], [], true, true⟩

/-- Fresh client `B` with a local stream, about to enter the glare race. -/
def glareB0 : Client := ⟨⟨true, []⟩, [], [], true, true⟩

/-- Client `A` after issuing its own offer toward `B`. -/
def glareA1 : Client := glareA0.initiateConnection "B" "rA" "offA" 0

/-- Client `B` after issuing its own offer toward `A`. -/
def glareB1 : Client := glareB0.initiateConnection "A" "rB" "offB" 0

/-- Client `A` after additionally receiving and answering `B`'s offer. -/
def glareA2 : Client := glareA1.handleOffer "offB" "B" "ansA"

/-- Client `B` after additionally receiving and answering `A`'s offer. -/
def glareB2 : Client := glareB1.handleOffer "offA" "A" "ansB"

/-- Claim C5 counterexample: `A` and `B` issue offers to each other
concurrently (each has one pending outbound offer), then each receives the
other's offer.  Because the offer-receiving side always answers, the pair
produces two answers — one per direction — not exactly one as the claim
states. -/
theorem claim5_glare_single_answer_cex :
    countOffers glareA1.sent = 1 ∧ countOffers glareB1.sent = 1 ∧
    countAnswers glareA2.sent + countAnswers glareB2.sent = 2 ∧
    ¬(countAnswers glareA2.sent + countAnswers glareB2.sent = 1) := by
  decide

/-- Claim C5 (amended): when two peers issue offers to each other
concurrently, each side, on receiving the other's offer, produces an answer
addressed to it regardless of its own pending offer — there is no glare
suppression — so exactly two answers are produced for the pair, one per
direction. -/
theorem claim5_glare_two_answers
    (cA cB : Client) (idA idB offA offB ansA ansB : String)
    (hA : countAnswers cA.sent = 0) (hB : countAnswers cB.sent = 0) :
    (cA.handleOffer offB idB ansA).sent = cA.sent ++ [ClientMsg.answer idB ansA] ∧
    (cB.handleOffer offA idA ansB).sent = cB.sent ++ [ClientMsg.answer idA ansB] ∧
    countAnswers (cA.handleOffer offB idB ansA).sent +
      countAnswers (cB.handleOffer offA idA ansB).sent = 2 := by
  refine ⟨rfl, rfl, ?_⟩
  show countAnswers (cA.sent ++ [ClientMsg.answer idB ansA]) +
    countAnswers (cB.sent ++ [ClientMsg.answer idA ansB]) = 2
  rw [countAnswers_append_answer, countAnswers_append_answer, hA, hB]

/-- Witness for claim C5 at the concrete glare scenario clients. -/
theorem claim5_glare_two_answers_witness :
    (countAnswers glareA1.sent = 0 ∧ countAnswers glareB1.sent = 0) ∧
    ((glareA1.handleOffer "offB" "B" "ansA").sent =
       glareA1.sent ++ [ClientMsg.answer "B" "ansA"] ∧
     (glareB1.handleOffer "offA" "A" "ansB").sent =
       glareB1.sent ++ [ClientMsg.answer "A" "ansB"] ∧
     countAnswers (glareA1.handleOffer "offB" "B" "ansA").sent +
       countAnswers (glareB1.handleOffer "offA" "A" "ansB").sent = 2) :=
  ⟨⟨by decide, by decide⟩,
   claim5_glare_two_answers glareA1 glareB1 "A" "B" "offA" "offB" "ansA" "ansB"
     (by decide) (by decide)⟩

/-- A client that has not yet obtained its local media stream. -/
def cNoStream : Client := ⟨⟨false, []⟩, [], [], false, true⟩

/-- Claim C8 counterexample: a session toward remote `u` is started while
the local media source is unavailable, then the media source becomes ready.
No offer is produced at either point — the total number of offers emitted
stays 0, not the 1 the claimed single retry would produce — because
`initiateConnection` keeps no pending record and nothing listens for the
media source becoming ready. -/
theorem claim8_pending_retry_cex :
    (cNoStream.initiateConnection "u" "r" "sdp" 0).sent = [] ∧
    countOffers ((cNoStream.initiateConnection "u" "r" "sdp" 0).mediaReady).sent = 0 ∧
    ¬(countOffers ((cNoStream.initiateConnection "u" "r" "sdp" 0).mediaReady).sent = 1) := by
  decide

/-- Claim C8 (amended): when a session toward a remote is started while the
local media source is unavailable, no offer is created at that moment, and
the only record kept is the roster entry — the remote is not recorded as
pending for a retry, and when the media source becomes ready no offer is
produced for it. -/
theorem claim8_no_offer_without_stream
    (c : Client) (userId freshPeerId offerSdp : String) (now : Nat)
    (h : c.webrtc.localStream = false) :
    (c.initiateConnection userId freshPeerId offerSdp now).sent = c.sent ∧
    (c.initiateConnection userId freshPeerId offerSdp now).webrtc = c.webrtc ∧
    (c.initiateConnection userId freshPeerId offerSdp now).participants =
      c.participants ++ [Participant.mk userId false false now] ∧
    ((c.initiateConnection userId freshPeerId offerSdp now).mediaReady).sent = c.sent ∧
    countOffers ((c.initiateConnection userId freshPeerId offerSdp now).mediaReady).sent =
      countOffers c.sent := by
  unfold Client.initiateConnection
  simp [h, Client.mediaReady]

/-- Witness for claim C8 at the concrete stream-less client. -/
theorem claim8_no_offer_without_stream_witness :
    cNoStream.webrtc.localStream = false ∧
    ((cNoStream.initiateConnection "u" "r" "sdp" 0).sent = cNoStream.sent ∧
     (cNoStream.initiateConnection "u" "r" "sdp" 0).webrtc = cNoStream.webrtc ∧
     (cNoStream.initiateConnection "u" "r" "sdp" 0).participants =
       cNoStream.participants ++ [Participant.mk "u" false false 0] ∧
     ((cNoStream.initiateConnection "u" "r" "sdp" 0).mediaReady).sent = cNoStream.sent ∧
     countOffers ((cNoStream.initiateConnection "u" "r" "sdp" 0).mediaReady).sent =
       countOffers cNoStream.sent) :=
  ⟨by decide,
   claim8_no_offer_without_stream cNoStream "u" "r" "sdp" 0 (by decide)⟩

/-- The stats record after one more relayed message. -/
def bumpRelayed (st : Stats) : Stats :=
  Stats.mk st.totalConnections st.currentConnections (st.messagesRelayed + 1)

/-- A relay state with two connected sockets `a` and `b` and no rooms. -/
def sRelay : ServerState :=
  ⟨RoomManager.empty, [("a", ["a"]), ("b", ["b"])], ⟨2, 2, 0⟩, []⟩

/-- Claim C4 counterexample: an offer from `a` naming the vanished target
`gone` is silently dropped — nothing is delivered to anyone — yet the
resulting state is NOT unchanged: the `messagesRelayed` counter is
incremented regardless of delivery, so "no other state change" fails. -/
theorem claim4_relay_verbatim_cex :
    onOffer sRelay "a" "gone" "sdp" ≠ sRelay ∧
    (onOffer sRelay "a" "gone" "sdp").outbox = sRelay.outbox ∧
    (onOffer sRelay "a" "gone" "sdp").rm = sRelay.rm ∧
    (onOffer sRelay "a" "gone" "sdp").stats.messagesRelayed =
      sRelay.stats.messagesRelayed + 1 := by
  decide

/-- Claim C4 (amended): a relayed `offer`/`answer`/`ice-candidate` whose
target and payload are present and non-empty is delivered with the payload
unmodified and `sender` set to the sending connection's id, to exactly the
target connection (whose Socket.IO room of its own id holds just itself);
when the target connection no longer exists the message is silently dropped
with no error emitted to anyone and no registry or outbox change — but the
`messagesRelayed` counter is still incremented in both cases. -/
theorem claim4_relay_verbatim (s : ServerState) (sid target payload : String)
    (hT : target ≠ "") (hP : payload ≠ "") :
    (lookupA target s.ioRooms = some [target] →
      (onOffer s sid target payload =
         ServerState.mk s.rm s.ioRooms (bumpRelayed s.stats)
           (s.outbox ++ [(target, OutMsg.offer payload sid)]) ∧
       onAnswer s sid target payload =
         ServerState.mk s.rm s.ioRooms (bumpRelayed s.stats)
           (s.outbox ++ [(target, OutMsg.answer payload sid)]) ∧
       onIceCandidate s sid target payload =
         ServerState.mk s.rm s.ioRooms (bumpRelayed s.stats)
           (s.outbox ++ [(target, OutMsg.iceCandidate payload sid)]))) ∧
    (lookupA target s.ioRooms = none →
      (onOffer s sid target payload =
         ServerState.mk s.rm s.ioRooms (bumpRelayed s.stats) s.outbox ∧
       onAnswer s sid target payload =
         ServerState.mk s.rm s.ioRooms (bumpRelayed s.stats) s.outbox ∧
       onIceCandidate s sid target payload =
         ServerState.mk s.rm s.ioRooms (bumpRelayed s.stats) s.outbox)) := by
  have hval : ¬(target = "" ∨ payload = "") := by simp [hT, hP]
  constructor
  · intro hsome
    refine ⟨?_, ?_, ?_⟩ <;>
      simp [onOffer, onAnswer, onIceCandidate, ioEmit, bumpRelayed, hval, hsome]
  · intro hnone
    refine ⟨?_, ?_, ?_⟩ <;>
      simp [onOffer, onAnswer, onIceCandidate, ioEmit, bumpRelayed, hval, hnone]

/-- Witness for claim C4: delivery to the connected target `b`. -/
theorem claim4_relay_verbatim_witness :
    (("b" : String) ≠ "" ∧ ("sdp" : String) ≠ "" ∧
     lookupA "b" sRelay.ioRooms = some ["b"]) ∧
    (onOffer sRelay "a" "b" "sdp" =
       ServerState.mk sRelay.rm sRelay.ioRooms (bumpRelayed sRelay.stats)
         (sRelay.outbox ++ [("b", OutMsg.offer "sdp" "a")]) ∧
     onAnswer sRelay "a" "b" "sdp" =
       ServerState.mk sRelay.rm sRelay.ioRooms (bumpRelayed sRelay.stats)
         (sRelay.outbox ++ [("b", OutMsg.answer "sdp" "a")]) ∧
     onIceCandidate sRelay "a" "b" "sdp" =
       ServerState.mk sRelay.rm sRelay.ioRooms (bumpRelayed sRelay.stats)
         (sRelay.outbox ++ [("b", OutMsg.iceCandidate "sdp" "a")])) :=
  ⟨⟨by decide, by decide, by decide⟩,
   (claim4_relay_verbatim sRelay "a" "b" "sdp" (by decide) (by decide)).1 (by decide)⟩

/-- A registry placing `b` alone in room `X`, which `a` is not in. -/
def rmTargetElsewhere : RoomManager := ⟨[("X", ["b"])], [("b", "X")], []⟩

/-- Claim C10: the relay handlers never consult the Room Registry — the
emitted messages are identical for any two registry states — and a message
naming a connected target is delivered to it; in particular this holds when
the sender is in no room at all and the target sits in an unrelated room,
which is exactly what the witness instantiates. -/
theorem claim10_relay_ignores_rooms
    (rmA rmB : RoomManager) (ioMap : List (String × List String)) (st : Stats)
    (out : List (String × OutMsg)) (sid target payload : String) :
    (onOffer (ServerState.mk rmA ioMap st out) sid target payload).outbox =
      (onOffer (ServerState.mk rmB ioMap st out) sid target payload).outbox ∧
    (onAnswer (ServerState.mk rmA ioMap st out) sid target payload).outbox =
      (onAnswer (ServerState.mk rmB ioMap st out) sid target payload).outbox ∧
    (onIceCandidate (ServerState.mk rmA ioMap st out) sid target payload).outbox =
      (onIceCandidate (ServerState.mk rmB ioMap st out) sid target payload).outbox ∧
    (target ≠ "" → payload ≠ "" → lookupA target ioMap = some [target] →
      (onOffer (ServerState.mk rmA ioMap st out) sid target payload).outbox =
        out ++ [(target, OutMsg.offer payload sid)]) := by
  refine ⟨?_, ?_, ?_, ?_⟩
  · by_cases hc : target = "" ∨ payload = "" <;>
      simp [onOffer, ioEmit, hc]
  · by_cases hc : target = "" ∨ payload = "" <;>
      simp [onAnswer, ioEmit, hc]
  · by_cases hc : target = "" ∨ payload = "" <;>
      simp [onIceCandidate, ioEmit, hc]
  · intro hT hP hsome
    have hval : ¬(target = "" ∨ payload = "") := by simp [hT, hP]
    simp [onOffer, ioEmit, hval, hsome]

/-- Witness for claim C10: sender `a` is in no room of registry
`RoomManager.empty`, the target `b` sits in the unrelated room `X` of
registry `rmTargetElsewhere`, and the offer is delivered to `b` all the
same, identically under both registries. -/
theorem claim10_relay_ignores_rooms_witness :
    (("b" : String) ≠ "" ∧ ("sdp" : String) ≠ "" ∧
     lookupA "b" [("a", ["a"]), ("b", ["b"])] = some ["b"] ∧
     lookupA "a" RoomManager.empty.userRooms = none ∧
     lookupA "b" rmTargetElsewhere.userRooms = some "X") ∧
    ((onOffer (ServerState.mk RoomManager.empty [("a", ["a"]), ("b", ["b"])] ⟨2, 2, 0⟩ [])
        "a" "b" "sdp").outbox =
      (onOffer (ServerState.mk rmTargetElsewhere [("a", ["a"]), ("b", ["b"])] ⟨2, 2, 0⟩ [])
        "a" "b" "sdp").outbox ∧
     (onOffer (ServerState.mk RoomManager.empty [("a", ["a"]), ("b", ["b"])] ⟨2, 2, 0⟩ [])
        "a" "b" "sdp").outbox = [] ++ [("b", OutMsg.offer "sdp" "a")]) :=
  ⟨⟨by decide, by decide, by decide, by decide, by decide⟩,
   ⟨(claim10_relay_ignores_rooms RoomManager.empty rmTargetElsewhere
       [("a", ["a"]), ("b", ["b"])] ⟨2, 2, 0⟩ [] "a" "b" "sdp").1,
    (claim10_relay_ignores_rooms RoomManager.empty rmTargetElsewhere
       [("a", ["a"]), ("b", ["b"])] ⟨2, 2, 0⟩ [] "a" "b" "sdp").2.2.2
      (by decide) (by decide) (by decide)⟩⟩

end VoiceApp
